import Mathlib

/-!
Verification development for the GPU sparse-LU tree-factorization core of
superlu_dist (LUstruct_v100): the pipelined scheduler dsparseTreeFactorGPU,
the baseline scheduler dsparseTreeFactorGPUBaseline, the panel-broadcast
primitive dPanelBcastGPU, the diagonal-factor/panel-solve primitive
dDiagFactorPanelSolveGPU, and the xlpanel_t index constructor.

The embedding is a faithful shallow model of the C++ sources: each primitive
is a pure function from an explicit memory state to a new state together with
a trace of the externally visible operations it performs (MPI broadcasts,
cudaMemcpy transfers, GPU kernel launches, stream synchronizations).
External collaborators (dense kernels, the threshold-pivot kernel, MPI
transport contents) are abstracted as an environment of oracle functions;
the control flow, guards and indexing are translated from the source.
-/

set_option autoImplicit false

/-- Abstract contents of a host or device buffer (index arrays, value
arrays, packed diagonal blocks).  The numeric payload is irrelevant to the
scheduling properties, so a list of integers stands for raw buffer data. -/
abbrev Data : Type := List Int

/-- Externally visible operations performed by the factorization core.
Each constructor corresponds to one call site in the source: MPI_Bcast
calls, cudaMemcpy transfers, GPU kernel launches, cudaStreamSynchronize,
the printf in the window loop, and the two intra-core function calls
(dDiagFactorPanelSolveGPU and dPanelBcastGPU). -/
inductive Ev : Type where
  /-- Invocation of dDiagFactorPanelSolveGPU(k, offset, dFBufs). -/
  | diagCall (k offset : Int)
  /-- diagFactorPackDiagBlockGPU launch at the diagonal owner. -/
  | diagKernel (k : Int)
  /-- MPI_Bcast of BlockLFactor across the process row (root kcol k). -/
  | bcastDiagL (k offset : Int)
  /-- MPI_Bcast of BlockUFactor across the process column (root krow k). -/
  | bcastDiagU (k offset : Int)
  /-- cudaMemcpy host-to-device into A_gpu.dFBufs at the given slot. -/
  | h2d (offset : Int)
  /-- panelSolveGPU on the U panel of k using handle/stream at the slot. -/
  | trsmU (k offset : Int)
  /-- panelSolveGPU on the L panel of k using handle/stream at the slot. -/
  | trsmL (k offset : Int)
  /-- cudaStreamSynchronize of A_gpu.cuStreams at the given slot. -/
  | sync (offset : Int)
  /-- Invocation of dPanelBcastGPU(k, offset). -/
  | bcastCall (k offset : Int)
  /-- MPI_Bcast of the U-panel index array for node k (slot offset). -/
  | bcastUidx (k offset : Int)
  /-- MPI_Bcast of the U-panel value array for node k (slot offset). -/
  | bcastUval (k offset : Int)
  /-- cudaMemcpy device-to-host of the U-panel index array (slot offset). -/
  | d2hU (k offset : Int)
  /-- MPI_Bcast of the L-panel index array for node k (slot offset). -/
  | bcastLidx (k offset : Int)
  /-- MPI_Bcast of the L-panel value array for node k (slot offset). -/
  | bcastLval (k offset : Int)
  /-- cudaMemcpy device-to-host of the L-panel index array (slot offset). -/
  | d2hL (k offset : Int)
  /-- The printf in the pipelined window loop, one per processed node. -/
  | doing (k0 offset : Int)
  /-- lookAheadUpdateGPU(offset, k, k_parent, ...). -/
  | lookAhead (offset k kpar : Int)
  /-- dSchurCompUpdateExcludeOneGPU(offset, k, k_parent, ...). -/
  | excludeOne (offset k kpar : Int)
  /-- dSchurComplementUpdateGPU(streamId, k, ...) in the baseline. -/
  | schurAll (k : Int)
deriving DecidableEq, Repr

/-- Process-local memory touched by the factorization core: the per-slot
host and device receive buffers, the owned panel index arrays (host and
device mirrors), the device-resident panel values (as one abstract store
mutated by the GPU kernels), the per-offset diagonal scratch buffers
dFBufs (host) and A_gpu.dFBufs (device), and the pivot info output. -/
structure Mem : Type where
  hUidx : Int → Data
  hUval : Int → Data
  hLidx : Int → Data
  hLval : Int → Data
  gUidx : Int → Data
  gUval : Int → Data
  gLidx : Int → Data
  gLval : Int → Data
  uIdxHost : Int → Data
  uIdxGpu : Int → Data
  lIdxHost : Int → Data
  lIdxGpu : Int → Data
  gpuVals : Data
  dFBufL : Int → Data
  dFBufU : Int → Data
  gDFBuf : Int → Data
  info : Int

/-- Static inputs of one call to the factorization core: the subtree
description (sforest), the elimination-forest metadata, the precomputed
send-count tables, the look-ahead configuration, and the process-grid
coordinates and mapping functions of the calling rank. -/
structure Params : Type where
  nNodes : Int
  perm : Int → Int
  setree : Int → Int
  nsupers : Int
  myIperm : Int → Int
  maxTopoLevel : Int
  eTreeTopLims : Int → Int
  numLA : Int
  UidxSendCounts : Int → Int
  UvalSendCounts : Int → Int
  LidxSendCounts : Int → Int
  LvalSendCounts : Int → Int
  iam : Int
  myrow : Int
  mycol : Int
  procIJ : Int → Int → Int
  krow : Int → Int
  kcol : Int → Int
  g2lRow : Int → Int
  g2lCol : Int → Int

/-- Modelled from the spec: the external collaborators of the core
(threshold-pivot diagonal kernel diagFactorPackDiagBlockGPU, dense
triangular-solve and Schur-update GPU kernels lookAheadUpdateGPU,
dSchurCompUpdateExcludeOneGPU and dSchurComplementUpdateGPU, and the data
delivered by MPI broadcasts) are abstracted as oracle functions.  Only
their side-effect shape is modelled; their numeric content is opaque. -/
structure Env : Type where
  diagEffect : Int → Data → Data
  diagL : Int → Data
  diagU : Int → Data
  kinfo : Int → Int
  recvDiagL : Int → Data
  recvDiagU : Int → Data
  trsmUEff : Int → Data → Data
  trsmLEff : Int → Data → Data
  recvUidx : Int → Data
  recvUval : Int → Data
  recvLidx : Int → Data
  recvLval : Int → Data
  lookAheadEff : Int → Int → Int → Data → Data
  excludeOneEff : Int → Int → Int → Data → Data
  schurAllEff : Int → Data → Data

/-- Pointwise update of an Int-indexed store, modelling a write to one
array slot. -/
def upd (f : Int → Data) (i : Int) (v : Data) : Int → Data :=
  fun j => if j = i then v else f j

/-- The integer interval [a, b) as a list, modelling a C for loop
for (k0 = a; k0 < b; ++k0). -/
def intRange (a b : Int) : List Int :=
  (List.range (b - a).toNat).map (fun (i : Nat) => a + (i : Int))

/-- Run a state-and-trace step function over a list of loop indices,
concatenating the emitted traces; models a C for loop whose body mutates
shared state and performs externally visible operations. -/
def runSeq {σ : Type} (f : σ → Int → σ × List Ev) : σ → List Int → σ × List Ev
  | st, [] => (st, [])
  | st, x :: xs =>
      let r1 := f st x
      let r2 := runSeq f r1.1 xs
      (r2.1, r1.2 ++ r2.2)

/-- Shallow embedding of LUstruct_v100::dPanelBcastGPU: broadcast the U
panel of node k across the process column (root krow k) and the L panel
across the process row (root kcol k).  The transient panel handle aliases
the owned panel at the owning rank (which is the broadcast root, so its
device data is unchanged and only the index array is mirrored to host) and
the receive buffers of the given slot otherwise.  Each side is skipped
entirely when its precomputed send count is zero.  Returns the new memory,
the trace of MPI/GPU operations, and the status (always 0). -/
def dPanelBcastGPU (P : Params) (env : Env) (m : Mem) (k offset : Int) :
    Mem × List Ev × Int :=
  let r1 :=
    if P.UidxSendCounts k > 0 then
      if P.myrow = P.krow k then
        ({ m with uIdxHost := upd m.uIdxHost (P.g2lRow k) (m.uIdxGpu (P.g2lRow k)) },
         [Ev.bcastUidx k offset, Ev.bcastUval k offset, Ev.d2hU k offset])
      else
        ({ m with gUidx := upd m.gUidx offset (env.recvUidx k),
                  gUval := upd m.gUval offset (env.recvUval k),
                  hUidx := upd m.hUidx offset (env.recvUidx k) },
         [Ev.bcastUidx k offset, Ev.bcastUval k offset, Ev.d2hU k offset])
    else (m, [])
  let m1 := r1.1
  let r2 :=
    if P.LidxSendCounts k > 0 then
      if P.mycol = P.kcol k then
        ({ m1 with lIdxHost := upd m1.lIdxHost (P.g2lCol k) (m1.lIdxGpu (P.g2lCol k)) },
         [Ev.bcastLidx k offset, Ev.bcastLval k offset, Ev.d2hL k offset])
      else
        ({ m1 with gLidx := upd m1.gLidx offset (env.recvLidx k),
                   gLval := upd m1.gLval offset (env.recvLval k),
                   hLidx := upd m1.hLidx offset (env.recvLidx k) },
         [Ev.bcastLidx k offset, Ev.bcastLval k offset, Ev.d2hL k offset])
    else (m1, [])
  (r2.1, r1.2 ++ r2.2, 0)

/-- Shallow embedding of LUstruct_v100::dDiagFactorPanelSolveGPU: at the
diagonal owner run the threshold-pivot diagonal-factor kernel (which packs
the L and U diagonal blocks into the host scratch buffers dFBufs at the
slot and writes the pivot status into info); broadcast BlockLFactor across
the process row and BlockUFactor across the process column; on the owning
row copy the L diagonal block to device and triangular-solve the U panel;
on the owning column the transposed analogue.  Returns the new memory, the
trace, and the status (always 0). -/
def dDiagFactorPanelSolveGPU (P : Params) (env : Env) (m : Mem) (k offset : Int) :
    Mem × List Ev × Int :=
  let r1 :=
    if P.iam = P.procIJ k k then
      ({ m with gpuVals := env.diagEffect k m.gpuVals,
                dFBufU := upd m.dFBufU offset (env.diagU k),
                dFBufL := upd m.dFBufL offset (env.diagL k),
                info := env.kinfo k }, [Ev.diagKernel k])
    else (m, [])
  let m1 := r1.1
  let r2 :=
    if P.myrow = P.krow k then
      ((if P.mycol = P.kcol k then m1
        else { m1 with dFBufL := upd m1.dFBufL offset (env.recvDiagL k) }),
       [Ev.bcastDiagL k offset])
    else (m1, [])
  let m2 := r2.1
  let r3 :=
    if P.mycol = P.kcol k then
      ((if P.myrow = P.krow k then m2
        else { m2 with dFBufU := upd m2.dFBufU offset (env.recvDiagU k) }),
       [Ev.bcastDiagU k offset])
    else (m2, [])
  let m3 := r3.1
  let r4 :=
    if P.myrow = P.krow k then
      ({ m3 with gDFBuf := upd m3.gDFBuf offset (m3.dFBufL offset),
                 gpuVals := env.trsmUEff k m3.gpuVals },
       [Ev.h2d offset, Ev.trsmU k offset, Ev.sync offset])
    else (m3, [])
  let m4 := r4.1
  let r5 :=
    if P.mycol = P.kcol k then
      ({ m4 with gDFBuf := upd m4.gDFBuf offset (m4.dFBufU offset),
                 gpuVals := env.trsmLEff k m4.gpuVals },
       [Ev.h2d offset, Ev.trsmL k offset, Ev.sync offset])
    else (m4, [])
  (r5.1, r1.2 ++ r2.2 ++ r3.2 ++ r4.2 ++ r5.2, 0)

/-- Scheduler bookkeeping state: the process-local memory, the per-position
localNumChildrenLeft counters, and the donePanelSolve / donePanelBcast
flag arrays of dsparseTreeFactorGPU. -/
structure SSt : Type where
  mem : Mem
  cnt : Int → Int
  doneSolve : Int → Bool
  doneBcast : Int → Bool

/-- Increment of one slot of an Int-indexed counter array. -/
def bump (f : Int → Int) (i : Int) : Int → Int :=
  fun j => if j = i then f i + 1 else f j

/-- Decrement of one slot of an Int-indexed counter array. -/
def decr (f : Int → Int) (i : Int) : Int → Int :=
  fun j => if j = i then f i - 1 else f j

/-- The localNumChildrenLeft initialization loop of dsparseTreeFactorGPU:
for each position k0, the position ik = myIperm(setree(perm(k0))) of its
parent is incremented when -1 < ik < nnodes. -/
def initCnt (P : Params) : Int → Int :=
  (intRange 0 P.nNodes).foldl
    (fun c k0 =>
      let k := P.perm k0
      let ik := P.myIperm (P.setree k)
      if ik > -1 ∧ ik < P.nNodes then bump c ik else c)
    (fun _ => 0)

/-- One node of the initial ramp of the pipelined scheduler: the nodes of
the first topological level are diagonal-factored synchronously at slot
offset 0 before the pipeline starts. -/
def rampNode (P : Params) (env : Env) (st : SSt) (k0 : Int) : SSt × List Ev :=
  let k := P.perm k0
  let offset : Int := 0
  let r := dDiagFactorPanelSolveGPU P env st.mem k offset
  ({ st with mem := r.1,
             doneSolve := fun j => if j = k0 then true else st.doneSolve j },
   Ev.diagCall k offset :: r.2.1)

/-- One node of the initial panel-broadcast ramp: positions k0 in
[eTreeTopLims 0, winSize) are broadcast at slot k0 mod numLA unless already
broadcast. -/
def rampBcastNode (P : Params) (env : Env) (st : SSt) (k0 : Int) : SSt × List Ev :=
  let k := P.perm k0
  let offset := Int.tmod k0 P.numLA
  if st.doneBcast k0 = false then
    let r := dPanelBcastGPU P env st.mem k offset
    ({ st with mem := r.1,
               doneBcast := fun j => if j = k0 then true else st.doneBcast j },
     Ev.bcastCall k offset :: r.2.1)
  else (st, [])

/-- The look-ahead panel-solve block of the pipelined window loop: when
the parent kpar of the current node is a tree node (kpar < nsupers) whose
position k0p = myIperm(kpar) satisfies 0 < k0p < nnodes, decrement the
localNumChildrenLeft counter of the parent; when it has just reached zero and
topoLvl < maxTopoLevel - 1 (the topoLvl variable of the scheduler stays 0 for
the whole pipeline), immediately issue the diagonal
factorization and panel solve at slot 0. -/
def parentGate (P : Params) (env : Env) (topoLvl : Int) (st1 : SSt)
    (kpar : Int) : SSt × List Ev :=
  if kpar < P.nsupers then
    let k0p := P.myIperm kpar
    if k0p > 0 ∧ k0p < P.nNodes then
      let cnt1 := decr st1.cnt k0p
      if topoLvl < P.maxTopoLevel - 1 ∧ cnt1 k0p = 0 then
        let dOffset : Int := 0
        let r := dDiagFactorPanelSolveGPU P env st1.mem kpar dOffset
        ({ st1 with mem := r.1, cnt := cnt1,
                    doneSolve := fun j => if j = k0p then true else st1.doneSolve j },
         Ev.diagCall kpar dOffset :: r.2.1)
      else ({ st1 with cnt := cnt1 }, [])
    else (st1, [])
  else (st1, [])

/-- The per-node body of the pipelined window loop: emit the progress
printf, issue the look-ahead Schur update when both send counts are
positive, run the parent child-count gate (parentGate), and finally issue
the exclude-one Schur update when both send counts are positive. -/
def processNode (P : Params) (env : Env) (topoLvl k1 winSize parity : Int)
    (st : SSt) (k0 : Int) : SSt × List Ev :=
  let k := P.perm k0
  let halfWin := Int.tdiv P.numLA 2
  let offset := Int.tmod (k0 - k1) winSize +
    (if Int.tmod parity 2 ≠ 0 then halfWin else 0)
  let ev0 := [Ev.doing k0 offset]
  let kpar := P.setree k
  let r1 :=
    if P.UidxSendCounts k > 0 ∧ P.LidxSendCounts k > 0 then
      ({ st with mem :=
          { st.mem with gpuVals := env.lookAheadEff offset k kpar st.mem.gpuVals } },
       [Ev.lookAhead offset k kpar])
    else (st, [])
  let st1 := r1.1
  let r2 := parentGate P env topoLvl st1 kpar
  let st2 := r2.1
  let r3 :=
    if P.UidxSendCounts k > 0 ∧ P.LidxSendCounts k > 0 then
      ({ st2 with mem :=
          { st2.mem with gpuVals := env.excludeOneEff offset k kpar st2.mem.gpuVals } },
       [Ev.excludeOne offset k kpar])
    else (st2, [])
  (r3.1, ev0 ++ r1.2 ++ r2.2 ++ r3.2)

/-- The next-window scan of the pipelined scheduler: panel-broadcast each
node of the next window whose child counter is already zero (at the
parity-shifted slot for the other half window); on the first node whose
counter is still positive, shrink the window size to stop before it and
break.  Returns the state, the trace, and the winSize for the next window
iteration. -/
def scanLoop (P : Params) (env : Env) (k1n winSize parity : Int) :
    SSt → List Int → SSt × List Ev × Int
  | st, [] => (st, [], winSize)
  | st, k0n :: rest =>
      if st.cnt k0n = 0 then
        let kNext := P.perm k0n
        let halfWin := Int.tdiv P.numLA 2
        let offsetNext := Int.tmod (k0n - k1n) winSize +
          (if Int.tmod parity 2 = 0 then halfWin else 0)
        let r := dPanelBcastGPU P env st.mem kNext offsetNext
        let st1 := { st with mem := r.1,
                             doneBcast := fun j => if j = k0n then true else st.doneBcast j }
        let rr := scanLoop P env k1n winSize parity st1 rest
        (rr.1, (Ev.bcastCall kNext offsetNext :: r.2.1) ++ rr.2.1, rr.2.2)
      else (st, [], k0n - k1n)

/-- The end-of-window stream synchronization: for every node of the just
processed window (delimited by the window size saved before the scan) with
nonzero L and U send counts, synchronize the GPU stream of its slot. -/
def syncNode (P : Params) (k1 winSize parity : Int) (st : SSt) (k0 : Int) :
    SSt × List Ev :=
  let k := P.perm k0
  let halfWin := Int.tdiv P.numLA 2
  let offset := Int.tmod (k0 - k1) winSize +
    (if Int.tmod parity 2 ≠ 0 then halfWin else 0)
  if P.UidxSendCounts k > 0 ∧ P.LidxSendCounts k > 0 then
    (st, [Ev.sync offset])
  else (st, [])

/-- One iteration of the while (k1 < nnodes) pipeline loop: process the
window [k1, min(nnodes, k1 + winSize)), scan and broadcast the next
window (possibly shrinking winSize), then synchronize the streams of the
old window.  Returns the state, the trace, and the next winSize; the
caller advances k1 by the old winSize. -/
def windowIter (P : Params) (env : Env) (topoLvl k1 winSize parity : Int)
    (st : SSt) : SSt × List Ev × Int :=
  let r1 := runSeq (processNode P env topoLvl k1 winSize parity) st
    (intRange k1 (min P.nNodes (k1 + winSize)))
  let k1n := k1 + winSize
  let r2 := scanLoop P env k1n winSize parity r1.1
    (intRange k1n (min P.nNodes (k1n + winSize)))
  let r3 := runSeq (syncNode P k1 winSize parity) r2.1
    (intRange k1 (min P.nNodes (k1 + winSize)))
  (r3.1, r1.2 ++ r2.2.1 ++ r3.2, r2.2.2)

/-- The while (k1 < nnodes) loop of the pipelined scheduler, with explicit
fuel: the Boolean result is true when the loop reached its exit condition
k1 >= nnodes, and false when the fuel ran out first. -/
def pipeLoop (P : Params) (env : Env) (topoLvl : Int) :
    Nat → Int → Int → Int → SSt → SSt × List Ev × Bool
  | 0, k1, _, _, st =>
      if k1 < P.nNodes then (st, [], false) else (st, [], true)
  | fuel + 1, k1, winSize, parity, st =>
      if k1 < P.nNodes then
        let r := windowIter P env topoLvl k1 winSize parity st
        let rr := pipeLoop P env topoLvl fuel (k1 + winSize) r.2.2 (parity + 1) r.1
        (rr.1, r.2.1 ++ rr.2.1, rr.2.2)
      else (st, [], true)

/-- Result of one scheduler call: final state, trace of externally visible
operations, whether the call ran to completion, and the returned status. -/
structure Res : Type where
  st : SSt
  trace : List Ev
  finished : Bool
  status : Int

/-- Shallow embedding of LUstruct_v100::dsparseTreeFactorGPU: the
pipelined scheduler.  An empty subtree (nnodes < 1) returns status 1
immediately; otherwise the child counters are initialized, the first
topological level is factored in the initial ramp, the first window of
panel broadcasts is issued, and the windowed pipeline runs until
k1 >= nnodes (or the fuel is exhausted, modelling nontermination). -/
def dsparseTreeFactorGPU (P : Params) (env : Env) (m0 : Mem) (fuel : Nat) : Res :=
  if P.nNodes < 1 then
    { st := { mem := m0, cnt := fun _ => 0,
              doneSolve := fun _ => false, doneBcast := fun _ => false },
      trace := [], finished := true, status := 1 }
  else
    let st0 : SSt := { mem := m0, cnt := initCnt P,
                       doneSolve := fun _ => false, doneBcast := fun _ => false }
    let topoLvl : Int := 0
    let r1 := runSeq (rampNode P env) st0
      (intRange (P.eTreeTopLims 0) (P.eTreeTopLims 1))
    let winSize := min (Int.tdiv P.numLA 2) (P.eTreeTopLims 1)
    let r2 := runSeq (rampBcastNode P env) r1.1
      (intRange (P.eTreeTopLims 0) winSize)
    let r3 := pipeLoop P env topoLvl fuel 0 winSize 0 r2.1
    { st := r3.1, trace := r1.2 ++ r2.2 ++ r3.2.1,
      finished := r3.2.2, status := 0 }

/-- The inline diagonal-factorization, diagonal-broadcast and panel-solve
section of the baseline scheduler: identical to dDiagFactorPanelSolveGPU
except that the host scratch buffer is dFBufs[k0 - k_st] while the device
scratch buffer, the cublas handle and the stream are the slot-0 ones. -/
def baselineDiagPart (P : Params) (env : Env) (m : Mem) (k offset : Int) :
    Mem × List Ev :=
  let r1 :=
    if P.iam = P.procIJ k k then
      ({ m with gpuVals := env.diagEffect k m.gpuVals,
                dFBufU := upd m.dFBufU offset (env.diagU k),
                dFBufL := upd m.dFBufL offset (env.diagL k),
                info := env.kinfo k }, [Ev.diagKernel k])
    else (m, [])
  let m1 := r1.1
  let r2 :=
    if P.myrow = P.krow k then
      ((if P.mycol = P.kcol k then m1
        else { m1 with dFBufL := upd m1.dFBufL offset (env.recvDiagL k) }),
       [Ev.bcastDiagL k offset])
    else (m1, [])
  let m2 := r2.1
  let r3 :=
    if P.mycol = P.kcol k then
      ((if P.myrow = P.krow k then m2
        else { m2 with dFBufU := upd m2.dFBufU offset (env.recvDiagU k) }),
       [Ev.bcastDiagU k offset])
    else (m2, [])
  let m3 := r3.1
  let r4 :=
    if P.myrow = P.krow k then
      ({ m3 with gDFBuf := upd m3.gDFBuf 0 (m3.dFBufL offset),
                 gpuVals := env.trsmUEff k m3.gpuVals },
       [Ev.h2d 0, Ev.trsmU k 0, Ev.sync 0])
    else (m3, [])
  let m4 := r4.1
  let r5 :=
    if P.mycol = P.kcol k then
      ({ m4 with gDFBuf := upd m4.gDFBuf 0 (m4.dFBufU offset),
                 gpuVals := env.trsmLEff k m4.gpuVals },
       [Ev.h2d 0, Ev.trsmL k 0, Ev.sync 0])
    else (m4, [])
  (r5.1, r1.2 ++ r2.2 ++ r3.2 ++ r4.2 ++ r5.2)

/-- The trailing Schur-complement-update section of the baseline
scheduler: dSchurComplementUpdateGPU on stream 0 when both send counts are
positive, otherwise nothing. -/
def baselineSchurPart (P : Params) (env : Env) (m : Mem) (k : Int) :
    Mem × List Ev :=
  if P.UidxSendCounts k > 0 ∧ P.LidxSendCounts k > 0 then
    ({ m with gpuVals := env.schurAllEff k m.gpuVals }, [Ev.schurAll k])
  else (m, [])

/-- One node of the baseline scheduler: inline diagonal
factorization/broadcast/panel-solve, then the inline panel broadcast
(whose body coincides with dPanelBcastGPU at slot 0), then the full Schur
complement update. -/
def baselineNode (P : Params) (env : Env) (kSt : Int) (m : Mem) (k0 : Int) :
    Mem × List Ev :=
  let k := P.perm k0
  let offset := k0 - kSt
  let r1 := baselineDiagPart P env m k offset
  let r2 := dPanelBcastGPU P env r1.1 k 0
  let r3 := baselineSchurPart P env r2.1 k
  (r3.1, r1.2 ++ r2.2.1 ++ r3.2)

/-- One topological level of the baseline scheduler. -/
def baselineLevel (P : Params) (env : Env) (m : Mem) (topoLvl : Int) :
    Mem × List Ev :=
  let kSt := P.eTreeTopLims topoLvl
  let kEnd := P.eTreeTopLims (topoLvl + 1)
  runSeq (baselineNode P env kSt) m (intRange kSt kEnd)

/-- Shallow embedding of LUstruct_v100::dsparseTreeFactorGPUBaseline: the
synchronous reference scheduler, walking topological levels strictly in
order.  An empty subtree returns status 1 immediately; otherwise it always
runs to completion with status 0. -/
def dsparseTreeFactorGPUBaseline (P : Params) (env : Env) (m0 : Mem) : Res :=
  if P.nNodes < 1 then
    { st := { mem := m0, cnt := fun _ => 0,
              doneSolve := fun _ => false, doneBcast := fun _ => false },
      trace := [], finished := true, status := 1 }
  else
    let r := runSeq (baselineLevel P env) m0 (intRange 0 P.maxTopoLevel)
    { st := { mem := r.1, cnt := fun _ => 0,
              doneSolve := fun _ => false, doneBcast := fun _ => false },
      trace := r.2, finished := true, status := 0 }

/-- Size of the lsub header, before the block descriptors: lsub[0] holds
the block count and lsub[1] the total nonzero row count.  The constant is
defined in a header outside src/; the value 2 is forced by the
reads of lsub[0] and lsub[1] in the constructor followed by descriptors from
position BC_HEADER. -/
def BC_HEADER : Nat := 2

/-- Size of one block descriptor in lsub: the global block id followed by
the number of full rows of the block.  The value 2 is forced by the
reads lsub[p] and lsub[p + 1] in the constructor and its advance by
LB_DESCRIPTOR + nrows. -/
def LB_DESCRIPTOR : Nat := 2

/-- Size of the header of the constructed L-panel index array: index[0] =
nlb, index[1] = nzrow, index[2] = isDiagIncluded, index[3] = SuperSize(k).
The constant is defined in lupanels.hpp outside src/; the value 4 is
forced by the four header writes. -/
def LPANEL_HEADER_SIZE : Nat := 4

/-- SuperSize(k): the number of columns of supernode k, from the global
offset table xsup. -/
def SuperSize (xsup : Int → Int) (k : Int) : Int :=
  xsup (k + 1) - xsup k

/-- Starting position of block lb inside lsub: the descriptors are walked
from BC_HEADER, each block advancing by LB_DESCRIPTOR plus its row count
(mirroring lsub_ptr += LB_DESCRIPTOR + nrows). -/
def blockPos (lsub : Nat → Int) : Nat → Nat
  | 0 => BC_HEADER
  | lb + 1 => blockPos lsub lb + LB_DESCRIPTOR + (lsub (blockPos lsub lb + 1)).toNat

/-- Global block id of block lb of lsub. -/
def blkGid (lsub : Nat → Int) (lb : Nat) : Int :=
  lsub (blockPos lsub lb)

/-- Row count of block lb of lsub. -/
def blkNrows (lsub : Nat → Int) (lb : Nat) : Int :=
  lsub (blockPos lsub lb + 1)

/-- The prefix-sum segment written by the constructor: index[pxSumPtr] =
nrows + index[pxSumPtr - 1], starting from 0. -/
def pxSum (lsub : Nat → Int) : Nat → Int
  | 0 => 0
  | i + 1 => blkNrows lsub i + pxSum lsub i

/-- The relative row offsets of block lb: each stored row index minus the
first row xsup[global_id] of the block. -/
def blkRows (lsub : Nat → Int) (xsup : Int → Int) (lb : Nat) : List Int :=
  (List.range (blkNrows lsub lb).toNat).map
    (fun (r : Nat) => lsub (blockPos lsub lb + LB_DESCRIPTOR + r) - xsup (blkGid lsub lb))

/-- Shallow embedding of the xlpanel_t constructor: the index array it
builds, as the concatenation of its four disjoint regions — the header,
the block-id segment, the prefix-sum segment (leading 0), and the
relative row-offset segment. -/
def lpanelIndex (k : Int) (lsub : Nat → Int) (xsup : Int → Int)
    (isDiagIncluded : Int) : List Int :=
  let nlb := (lsub 0).toNat
  [lsub 0, lsub 1, isDiagIncluded, SuperSize xsup k]
    ++ (List.range nlb).map (blkGid lsub)
    ++ (List.range (nlb + 1)).map (pxSum lsub)
    ++ ((List.range nlb).map (blkRows lsub xsup)).flatten

/-- Output of the threshold-pivot kernel xgstrf2 (external collaborator):
the factored panel values, the U diagonal block, and the pivot status
written through the info pointer. -/
structure GstrfOut : Type where
  newVal : Data
  ublk : Data
  info : Int

/-- Shallow embedding of xlpanel_t::diagFactor: hand the panel values and
the info output pointer straight to the threshold-pivot kernel xgstrf2 and
return 0.  The result collects the mutated panel values, the U block, the
info value written by the kernel, and the return value. -/
def diagFactor (xgstrf2 : Int → Data → GstrfOut) (k : Int) (val : Data) :
    (Data × Data × Int) × Int :=
  let r := xgstrf2 k val
  ((r.newVal, r.ublk, r.info), 0)

/-- Concrete memory state with empty buffers, used by the concrete
executions below. -/
def mem0 : Mem :=
  { hUidx := fun _ => [], hUval := fun _ => [], hLidx := fun _ => [],
    hLval := fun _ => [], gUidx := fun _ => [], gUval := fun _ => [],
    gLidx := fun _ => [], gLval := fun _ => [], uIdxHost := fun _ => [],
    uIdxGpu := fun _ => [], lIdxHost := fun _ => [], lIdxGpu := fun _ => [],
    gpuVals := [], dFBufL := fun _ => [], dFBufU := fun _ => [],
    gDFBuf := fun _ => [], info := 0 }

/-- Concrete environment whose kernels are identities and whose broadcast
payloads are empty, used by the concrete executions below. -/
def env0 : Env :=
  { diagEffect := fun _ v => v, diagL := fun _ => [], diagU := fun _ => [],
    kinfo := fun _ => 0, recvDiagL := fun _ => [], recvDiagU := fun _ => [],
    trsmUEff := fun _ v => v, trsmLEff := fun _ v => v,
    recvUidx := fun _ => [], recvUval := fun _ => [],
    recvLidx := fun _ => [], recvLval := fun _ => [],
    lookAheadEff := fun _ _ _ v => v, excludeOneEff := fun _ _ _ v => v,
    schurAllEff := fun _ v => v }

/-- Concrete two-node elimination chain on a single-rank grid: node 0 (the
only node of the first topological level) is the sole child of node 1 (the
only node of the final topological level); numLA = 4 and all send counts
are 1. -/
def P0 : Params :=
  { nNodes := 2, perm := fun j => j, setree := fun k => k + 1, nsupers := 2,
    myIperm := fun j => j, maxTopoLevel := 2, eTreeTopLims := fun l => l,
    numLA := 4, UidxSendCounts := fun _ => 1, UvalSendCounts := fun _ => 1,
    LidxSendCounts := fun _ => 1, LvalSendCounts := fun _ => 1,
    iam := 0, myrow := 0, mycol := 0, procIJ := fun _ _ => 0,
    krow := fun _ => 0, kcol := fun _ => 0,
    g2lRow := fun k => k, g2lCol := fun k => k }

/-- The concrete chain of P0 with the look-ahead depth configured to 0. -/
def P0LA0 : Params := { P0 with numLA := 0 }

/-- Initial scheduler state for the concrete executions: empty memory,
counters from the initialization loop, all done flags clear. -/
def st0 (P : Params) : SSt :=
  { mem := mem0, cnt := initCnt P,
    doneSolve := fun _ => false, doneBcast := fun _ => false }

/-- Number of children of the node at position p among the positions
[a, nNodes): the positions j whose parent position myIperm(setree(perm j))
equals p.  The localNumChildrenLeft counter of the running scheduler holds
childrenFrom P k0 p when the positions before k0 are exactly the processed
ones. -/
def childrenFrom (P : Params) (a p : Int) : Nat :=
  (intRange a P.nNodes).countP (fun j => P.myIperm (P.setree (P.perm j)) = p)

/-- Recognizer for dDiagFactorPanelSolveGPU invocation events. -/
def isDiagCall : Ev → Bool
  | Ev.diagCall _ _ => true
  | _ => false

/-- The node of a Schur-complement-update event (look-ahead, exclude-one,
or baseline full update); none for every other event. -/
def schurNode : Ev → Option Int
  | Ev.lookAhead _ k _ => some k
  | Ev.excludeOne _ k _ => some k
  | Ev.schurAll k => some k
  | _ => none

/-- The buffer-slot offsets an event uses to index the per-slot streams,
handles, scratch buffers and receive buffers. -/
def evOffsets : Ev → List Int
  | Ev.diagCall _ o => [o]
  | Ev.diagKernel _ => []
  | Ev.bcastDiagL _ o => [o]
  | Ev.bcastDiagU _ o => [o]
  | Ev.h2d o => [o]
  | Ev.trsmU _ o => [o]
  | Ev.trsmL _ o => [o]
  | Ev.sync o => [o]
  | Ev.bcastCall _ o => [o]
  | Ev.bcastUidx _ o => [o]
  | Ev.bcastUval _ o => [o]
  | Ev.d2hU _ o => [o]
  | Ev.bcastLidx _ o => [o]
  | Ev.bcastLval _ o => [o]
  | Ev.d2hL _ o => [o]
  | Ev.doing _ o => [o]
  | Ev.lookAhead o _ _ => [o]
  | Ev.excludeOne o _ _ => [o]
  | Ev.schurAll _ => []

/-- The concrete chain of P0 with both send-count tables zero. -/
def P0Z : Params :=
  { P0 with UidxSendCounts := fun _ => 0, LidxSendCounts := fun _ => 0 }

/-- The concrete chain of P0 with an empty subtree (nNodes = 0). -/
def P0E : Params := { P0 with nNodes := 0 }

/-- Concrete well-formed lsub input with two blocks: block 0 has global id
10 and rows 12, 13; block 1 has global id 20 and rows 21, 22, 23; total
nonzero row count 5. -/
def lsubEx : Nat → Int :=
  fun n => [(2 : Int), 5, 10, 2, 12, 13, 20, 3, 21, 22, 23].getD n 0

/-- Concrete global offset table for the witness: supernode k starts at
row 10 k. -/
def xsupEx : Int → Int := fun k => 10 * k

/-- An event respects the Schur-update guard when, if it is a
Schur-complement-update call for node kk, both send counts of kk are
positive (the guard of every Schur call site in both schedulers). -/
def countsPos (P : Params) (e : Ev) : Prop :=
  ∀ kk, schurNode e = some kk →
    P.UidxSendCounts kk > 0 ∧ P.LidxSendCounts kk > 0

/-- An event only uses buffer-slot offsets inside [0, numLA), the size of
the per-slot stream/handle/receive-buffer arrays. -/
def offOk (P : Params) (e : Ev) : Prop :=
  ∀ o ∈ evOffsets e, 0 ≤ o ∧ o < P.numLA

theorem mem_intRange {a b j : Int} : j ∈ intRange a b ↔ a ≤ j ∧ j < b := by
  unfold intRange
  simp only [List.mem_map, List.mem_range]
  constructor
  · rintro ⟨i, hi, rfl⟩
    omega
  · rintro ⟨h1, h2⟩
    exact ⟨(j - a).toNat, by omega, by omega⟩

theorem runSeq_events_good {σ : Type} (f : σ → Int → σ × List Ev) (Good : Ev → Prop)
    (l : List Int) (hf : ∀ st x, x ∈ l → ∀ e ∈ (f st x).2, Good e) :
    ∀ st, ∀ e ∈ (runSeq f st l).2, Good e := by
  induction l with
  | nil => intro st e he; simp [runSeq] at he
  | cons x xs ih =>
      intro st e he
      simp only [runSeq, List.mem_append] at he
      rcases he with he | he
      · exact hf st x (by simp) e he
      · exact ih (fun st y hy e he => hf st y (by simp [hy]) e he) (f st x).1 e he

/-- C5: for every node k and slot offset, if UidxSendCounts k = 0 then
dPanelBcastGPU performs no U-panel broadcast and no U-index
device-to-host copy and leaves every U-side index and value buffer
unchanged; if LidxSendCounts k = 0 the same holds for the L side; with
both counts zero the call is a no-op: the memory is unchanged, the trace
is empty, and the status is 0. -/
theorem panelBcast_zero_count_noop (P : Params) (env : Env) (m : Mem) (k offset : Int) :
    (P.UidxSendCounts k = 0 →
      (∀ k2 o, Ev.bcastUidx k2 o ∉ (dPanelBcastGPU P env m k offset).2.1 ∧
               Ev.bcastUval k2 o ∉ (dPanelBcastGPU P env m k offset).2.1 ∧
               Ev.d2hU k2 o ∉ (dPanelBcastGPU P env m k offset).2.1) ∧
      (dPanelBcastGPU P env m k offset).1.hUidx = m.hUidx ∧
      (dPanelBcastGPU P env m k offset).1.gUidx = m.gUidx ∧
      (dPanelBcastGPU P env m k offset).1.gUval = m.gUval ∧
      (dPanelBcastGPU P env m k offset).1.uIdxHost = m.uIdxHost) ∧
    (P.LidxSendCounts k = 0 →
      (∀ k2 o, Ev.bcastLidx k2 o ∉ (dPanelBcastGPU P env m k offset).2.1 ∧
               Ev.bcastLval k2 o ∉ (dPanelBcastGPU P env m k offset).2.1 ∧
               Ev.d2hL k2 o ∉ (dPanelBcastGPU P env m k offset).2.1) ∧
      (dPanelBcastGPU P env m k offset).1.hLidx = m.hLidx ∧
      (dPanelBcastGPU P env m k offset).1.gLidx = m.gLidx ∧
      (dPanelBcastGPU P env m k offset).1.gLval = m.gLval ∧
      (dPanelBcastGPU P env m k offset).1.lIdxHost = m.lIdxHost) ∧
    (P.UidxSendCounts k = 0 → P.LidxSendCounts k = 0 →
      dPanelBcastGPU P env m k offset = (m, ([], 0))) := by
  refine ⟨?_, ?_, ?_⟩
  · intro hU
    have h1 : ¬ P.UidxSendCounts k > 0 := by omega
    unfold dPanelBcastGPU
    simp only [h1, if_false]
    split_ifs <;> simp
  · intro hL
    have h1 : ¬ P.LidxSendCounts k > 0 := by omega
    unfold dPanelBcastGPU
    simp only [h1, if_false]
    split_ifs <;> simp
  · intro hU hL
    have h1 : ¬ P.UidxSendCounts k > 0 := by omega
    have h2 : ¬ P.LidxSendCounts k > 0 := by omega
    unfold dPanelBcastGPU
    simp [h1, h2]

/-- Witness for C5 at a concrete node with both send counts zero. -/
theorem panelBcast_zero_count_noop_witness :
    P0Z.UidxSendCounts 1 = 0 ∧ P0Z.LidxSendCounts 1 = 0 ∧
    dPanelBcastGPU P0Z env0 mem0 1 0 = (mem0, ([], 0)) :=
  ⟨rfl, rfl, (panelBcast_zero_count_noop P0Z env0 mem0 1 0).2.2 rfl rfl⟩

/-- C9: dDiagFactorPanelSolveGPU always returns 0 (a singular or
near-singular pivot never aborts it and never changes its return value);
the numeric status is the one the threshold-pivot kernel writes into the
info output at the diagonal owner (elsewhere info is untouched); and the
xlpanel_t diagFactor member passes the info of the kernel through unaltered
while returning 0. -/
theorem diagFactor_forwards_pivot_info (P : Params) (env : Env) (m : Mem)
    (k offset : Int) (xgstrf2 : Int → Data → GstrfOut) (val : Data) :
    (dDiagFactorPanelSolveGPU P env m k offset).2.2 = 0 ∧
    (dDiagFactorPanelSolveGPU P env m k offset).1.info =
      (if P.iam = P.procIJ k k then env.kinfo k else m.info) ∧
    (diagFactor xgstrf2 k val).2 = 0 ∧
    (diagFactor xgstrf2 k val).1.2.2 = (xgstrf2 k val).info := by
  refine ⟨?_, ?_, rfl, rfl⟩
  · unfold dDiagFactorPanelSolveGPU
    split_ifs <;> rfl
  · unfold dDiagFactorPanelSolveGPU
    split_ifs <;> rfl

theorem intRange_eq_nil {a b : Int} (h : b ≤ a) : intRange a b = [] := by
  unfold intRange
  have : (b - a).toNat = 0 := by omega
  simp [this]

theorem windowIter_nonpos (P : Params) (env : Env) (topoLvl k1 winSize parity : Int)
    (st : SSt) (h : winSize ≤ 0) :
    windowIter P env topoLvl k1 winSize parity st = (st, ([], winSize)) := by
  unfold windowIter
  simp only [intRange_eq_nil (show min P.nNodes (k1 + winSize) ≤ k1 by omega),
             intRange_eq_nil (show min P.nNodes (k1 + winSize + winSize) ≤ k1 + winSize by omega),
             runSeq, scanLoop, List.append_nil]

theorem pipeLoop_nonpos (P : Params) (env : Env) (topoLvl : Int) (fuel : Nat) :
    ∀ (k1 winSize parity : Int) (st : SSt), winSize ≤ 0 → k1 < P.nNodes →
      (pipeLoop P env topoLvl fuel k1 winSize parity st).2.2 = false := by
  induction fuel with
  | zero =>
      intro k1 winSize parity st hw hk
      unfold pipeLoop
      rw [if_pos hk]
  | succ n ih =>
      intro k1 winSize parity st hw hk
      unfold pipeLoop
      rw [if_pos hk]
      simp only [windowIter_nonpos P env topoLvl k1 winSize parity st hw]
      exact ih (k1 + winSize) winSize (parity + 1) st hw (by omega)

/-- C2 (code bug): with the look-ahead depth configured to 0 or 1, the
pipelined scheduler initializes winSize = min(numLA / 2, eTreeTopLims[1])
= min(0, _) <= 0, so the while (k1 < nnodes) loop never advances k1 and
never terminates (for every fuel the loop is still running), while the
baseline scheduler completes with status 0 on the same nonempty subtree.
The spec requirement that the depth-0/1 pipelined scheduler degenerate to
the baseline is therefore violated by the code. -/
theorem pipelined_degenerate_lookahead_hangs (P : Params) (env : Env) (m : Mem)
    (fuel : Nat) (h1 : 1 ≤ P.nNodes) (h2 : P.numLA = 0 ∨ P.numLA = 1) :
    (dsparseTreeFactorGPU P env m fuel).finished = false ∧
    (dsparseTreeFactorGPUBaseline P env m).finished = true ∧
    (dsparseTreeFactorGPUBaseline P env m).status = 0 := by
  have hdiv : Int.tdiv P.numLA 2 = 0 := by
    rcases h2 with h | h <;> rw [h] <;> rfl
  refine ⟨?_, ?_, ?_⟩
  · unfold dsparseTreeFactorGPU
    rw [if_neg (by omega)]
    dsimp only
    exact pipeLoop_nonpos P env 0 fuel 0 _ 0 _
      (by rw [hdiv]; exact min_le_left 0 _) (by omega)
  · unfold dsparseTreeFactorGPUBaseline
    rw [if_neg (by omega)]
  · unfold dsparseTreeFactorGPUBaseline
    rw [if_neg (by omega)]

/-- Witness for C2 on the concrete two-node chain with numLA = 0. -/
theorem pipelined_degenerate_lookahead_hangs_witness :
    (1 : Int) ≤ P0LA0.nNodes ∧
    (dsparseTreeFactorGPU P0LA0 env0 mem0 50).finished = false ∧
    (dsparseTreeFactorGPUBaseline P0LA0 env0 mem0).finished = true :=
  ⟨by decide,
   (pipelined_degenerate_lookahead_hangs P0LA0 env0 mem0 50 (by decide) (Or.inl (by decide))).1,
   (pipelined_degenerate_lookahead_hangs P0LA0 env0 mem0 50 (by decide) (Or.inl (by decide))).2.1⟩

/-- C4: on an empty subtree (nnodes < 1) both schedulers return status 1
immediately, with an empty operation trace (no MPI communication, no GPU
calls) and the panel store untouched; on a nonempty subtree the baseline
always completes with status 0, and whenever the pipelined scheduler runs
to completion it returns status 0. -/
theorem empty_subtree_status (P : Params) (env : Env) (m : Mem) (fuel : Nat) :
    (P.nNodes < 1 →
      (dsparseTreeFactorGPU P env m fuel).status = 1 ∧
      (dsparseTreeFactorGPU P env m fuel).trace = [] ∧
      (dsparseTreeFactorGPU P env m fuel).st.mem = m ∧
      (dsparseTreeFactorGPU P env m fuel).finished = true ∧
      (dsparseTreeFactorGPUBaseline P env m).status = 1 ∧
      (dsparseTreeFactorGPUBaseline P env m).trace = [] ∧
      (dsparseTreeFactorGPUBaseline P env m).st.mem = m) ∧
    (1 ≤ P.nNodes →
      ((dsparseTreeFactorGPU P env m fuel).finished = true →
        (dsparseTreeFactorGPU P env m fuel).status = 0) ∧
      (dsparseTreeFactorGPUBaseline P env m).finished = true ∧
      (dsparseTreeFactorGPUBaseline P env m).status = 0) := by
  constructor
  · intro h
    unfold dsparseTreeFactorGPU dsparseTreeFactorGPUBaseline
    rw [if_pos h, if_pos h]
    exact ⟨rfl, rfl, rfl, rfl, rfl, rfl, rfl⟩
  · intro h
    unfold dsparseTreeFactorGPU dsparseTreeFactorGPUBaseline
    rw [if_neg (by omega), if_neg (by omega)]
    exact ⟨fun _ => rfl, rfl, rfl⟩

/-- Witness for C4: the empty subtree returns 1 with no operations, and
the nonempty concrete chain returns 0 from the baseline. -/
theorem empty_subtree_status_witness :
    P0E.nNodes < 1 ∧
    (dsparseTreeFactorGPU P0E env0 mem0 3).status = 1 ∧
    (dsparseTreeFactorGPU P0E env0 mem0 3).trace = [] ∧
    (1 : Int) ≤ P0.nNodes ∧
    (dsparseTreeFactorGPUBaseline P0 env0 mem0).status = 0 :=
  ⟨by decide,
   ((empty_subtree_status P0E env0 mem0 3).1 (by decide)).1,
   ((empty_subtree_status P0E env0 mem0 3).1 (by decide)).2.1,
   by decide,
   ((empty_subtree_status P0 env0 mem0 3).2 (by decide)).2.2⟩

theorem dPanelBcastGPU_events (P : Params) (env : Env) (m : Mem) (k offset : Int) :
    ∀ e ∈ (dPanelBcastGPU P env m k offset).2.1,
      schurNode e = none ∧ isDiagCall e = false ∧ evOffsets e = [offset] := by
  unfold dPanelBcastGPU
  split_ifs <;> intro e he <;>
    simp only [List.append_assoc, List.cons_append, List.nil_append,
      List.append_nil] at he <;>
    fin_cases he <;> exact ⟨rfl, rfl, rfl⟩

theorem dDiagFactorPanelSolveGPU_events (P : Params) (env : Env) (m : Mem)
    (k offset : Int) :
    ∀ e ∈ (dDiagFactorPanelSolveGPU P env m k offset).2.1,
      schurNode e = none ∧ isDiagCall e = false ∧
      (evOffsets e = [offset] ∨ evOffsets e = []) := by
  unfold dDiagFactorPanelSolveGPU
  split_ifs <;> intro e he <;>
    simp only [List.append_assoc, List.cons_append, List.nil_append,
      List.append_nil] at he <;>
    fin_cases he <;>
    first
      | exact ⟨rfl, rfl, Or.inl rfl⟩
      | exact ⟨rfl, rfl, Or.inr rfl⟩

theorem parentGate_events (P : Params) (env : Env) (topoLvl : Int)
    (st1 : SSt) (kpar : Int) :
    ∀ e ∈ (parentGate P env topoLvl st1 kpar).2,
      schurNode e = none ∧ (evOffsets e = [0] ∨ evOffsets e = []) := by
  simp only [parentGate]
  split_ifs <;> intro e he
  · rcases List.mem_cons.mp he with rfl | he
    · exact ⟨rfl, Or.inl rfl⟩
    · rcases dDiagFactorPanelSolveGPU_events P env st1.mem kpar 0 e he with ⟨h1, _, h3⟩
      exact ⟨h1, h3⟩
  · simp at he
  · simp at he
  · simp at he

theorem parentGate_trace (P : Params) (env : Env) (topoLvl : Int)
    (st1 : SSt) (kpar : Int) :
    (parentGate P env topoLvl st1 kpar).2 = [] ∨
    ∃ tl, (parentGate P env topoLvl st1 kpar).2 = Ev.diagCall kpar 0 :: tl := by
  simp only [parentGate]
  split_ifs
  · exact Or.inr ⟨_, rfl⟩
  · exact Or.inl rfl
  · exact Or.inl rfl
  · exact Or.inl rfl

theorem parentGate_diagCall_iff (P : Params) (env : Env) (topoLvl : Int)
    (st1 : SSt) (kpar k off : Int) :
    Ev.diagCall k off ∈ (parentGate P env topoLvl st1 kpar).2 ↔
      (k = kpar ∧ off = 0 ∧ kpar < P.nsupers ∧
       0 < P.myIperm kpar ∧ P.myIperm kpar < P.nNodes ∧
       topoLvl < P.maxTopoLevel - 1 ∧ st1.cnt (P.myIperm kpar) = 1) := by
  simp only [parentGate]
  split_ifs with h1 h2 h3
  · constructor
    · intro hmem
      rcases List.mem_cons.mp hmem with heq | hmem
      · rcases Ev.diagCall.inj heq with ⟨rfl, rfl⟩
        refine ⟨rfl, rfl, h1, by omega, h2.2, h3.1, ?_⟩
        have h4 := h3.2
        simp [decr] at h4
        omega
      · have := (dDiagFactorPanelSolveGPU_events P env st1.mem kpar 0 _ hmem).2.1
        simp [isDiagCall] at this
    · rintro ⟨rfl, rfl, _⟩
      exact List.mem_cons_self _ _
  · simp only [List.not_mem_nil, false_iff]
    rintro ⟨rfl, rfl, _, _, _, hlvl, hcnt⟩
    exact h3 ⟨hlvl, by simp [decr]; omega⟩
  · simp only [List.not_mem_nil, false_iff]
    rintro ⟨rfl, rfl, _, hp1, hp2, _⟩
    exact h2 ⟨by omega, hp2⟩
  · simp only [List.not_mem_nil, false_iff]
    rintro ⟨rfl, rfl, hs, _⟩
    exact h1 hs

theorem parentGate_diagCall_post (P : Params) (env : Env) (topoLvl : Int)
    (st1 : SSt) (kpar k off : Int)
    (h : Ev.diagCall k off ∈ (parentGate P env topoLvl st1 kpar).2) :
    (parentGate P env topoLvl st1 kpar).1.cnt (P.myIperm kpar) = 0 := by
  simp only [parentGate] at h ⊢
  split_ifs at h ⊢ with h1 h2 h3
  · have := h3.2
    simpa [decr] using this
  · simp at h
  · simp at h
  · simp at h

/-- C6: for a node with nonzero L and U send counts processed in a window
of the pipelined scheduler, the operations are issued in program order:
first the look-ahead Schur update, then (exactly when the child-count
gate of the parent becomes satisfied) the diagonal factorization of the
parent, and only after both the exclude-one Schur update, which is the
final event of the processing of the node. -/
theorem window_update_order (P : Params) (env : Env)
    (topoLvl k1 winSize parity : Int) (st : SSt) (k0 : Int)
    (hU : P.UidxSendCounts (P.perm k0) > 0)
    (hL : P.LidxSendCounts (P.perm k0) > 0) :
    ∃ off l,
      (processNode P env topoLvl k1 winSize parity st k0).2 =
        Ev.doing k0 off :: Ev.lookAhead off (P.perm k0) (P.setree (P.perm k0)) ::
          (l ++ [Ev.excludeOne off (P.perm k0) (P.setree (P.perm k0))]) ∧
      (∀ e ∈ l, schurNode e = none) ∧
      (l = [] ∨ ∃ tl, l = Ev.diagCall (P.setree (P.perm k0)) 0 :: tl) := by
  simp only [processNode, hU, hL, and_self, if_true, List.cons_append,
    List.nil_append, List.append_assoc]
  refine ⟨_, _, rfl, ?_, ?_⟩
  · exact fun e he => (parentGate_events P env _ _ _ e he).1
  · exact parentGate_trace P env _ _ _

/-- Witness for C6 at the first node of the concrete chain. -/
theorem window_update_order_witness :
    ∃ off l,
      (processNode P0 env0 0 0 1 0 (st0 P0) 0).2 =
        Ev.doing 0 off :: Ev.lookAhead off (P0.perm 0) (P0.setree (P0.perm 0)) ::
          (l ++ [Ev.excludeOne off (P0.perm 0) (P0.setree (P0.perm 0))]) ∧
      (∀ e ∈ l, schurNode e = none) ∧
      (l = [] ∨ ∃ tl, l = Ev.diagCall (P0.setree (P0.perm 0)) 0 :: tl) :=
  window_update_order P0 env0 0 0 1 0 (st0 P0) 0 (by decide) (by decide)

/-- C3 (amended): in the pipelined scheduler the mid-window issue of the
diagonal factorization of a parent is gated by the comparison
topoLvl < maxTopoLevel - 1 in which topoLvl is the scheduler variable
frozen at 0 for the whole pipeline; so it fires exactly when the
child-count gate is satisfied and the forest has more than one
topological level (0 < maxTopoLevel - 1), regardless of whether the
parent lies in the final topological level. -/
theorem midwindow_parent_diag_iff (P : Params) (env : Env)
    (k1 winSize parity : Int) (st : SSt) (k0 k off : Int) :
    Ev.diagCall k off ∈ (processNode P env 0 k1 winSize parity st k0).2 ↔
      (k = P.setree (P.perm k0) ∧ off = 0 ∧
       P.setree (P.perm k0) < P.nsupers ∧
       0 < P.myIperm (P.setree (P.perm k0)) ∧
       P.myIperm (P.setree (P.perm k0)) < P.nNodes ∧
       (0 : Int) < P.maxTopoLevel - 1 ∧
       st.cnt (P.myIperm (P.setree (P.perm k0))) = 1) := by
  simp only [processNode, List.cons_append, List.nil_append, List.append_assoc]
  split_ifs <;>
    simp only [List.mem_cons, List.mem_append, List.mem_singleton,
      List.not_mem_nil, or_false, false_or] <;>
    rw [parentGate_diagCall_iff] <;>
    simp

/-- Counterexample to C3 as stated: on the concrete two-node chain, node 1
(the parent of node 0) lies in the final topological level
[eTreeTopLims(maxTopoLevel - 1), eTreeTopLims(maxTopoLevel)), yet the
pipelined scheduler issues its diagonal factorization from the mid-window
look-ahead path: Ev.diagCall 1 0 is emitted by processNode (the window
body) and by the full run, while the initial ramp never emits it. -/
theorem midwindow_parent_diag_counterexample :
    (P0.eTreeTopLims (P0.maxTopoLevel - 1) ≤ P0.myIperm 1 ∧
     P0.myIperm 1 < P0.eTreeTopLims P0.maxTopoLevel) ∧
    Ev.diagCall 1 0 ∈ (processNode P0 env0 0 0 1 0 (st0 P0) 0).2 ∧
    Ev.diagCall 1 0 ∈ (dsparseTreeFactorGPU P0 env0 mem0 4).trace ∧
    Ev.diagCall 1 0 ∉ (runSeq (rampNode P0 env0) (st0 P0)
      (intRange (P0.eTreeTopLims 0) (P0.eTreeTopLims 1))).2 := by
  decide

theorem runSeq_trace_filter {σ : Type} (f : σ → Int → σ × List Ev) (p : Ev → Bool)
    (g : Int → List Ev) (l : List Int)
    (hf : ∀ st x, x ∈ l → ((f st x).2.filter p) = g x) :
    ∀ st, ((runSeq f st l).2.filter p) = (l.map g).flatten := by
  induction l with
  | nil => intro st; simp [runSeq]
  | cons x xs ih =>
      intro st
      simp only [runSeq, List.filter_append, List.map_cons, List.flatten_cons,
        hf st x (by simp), ih (fun st y hy => hf st y (by simp [hy])) (f st x).1]

theorem flatten_map_singleton {α : Type} (g : Int → α) (l : List Int) :
    (l.map (fun x => [g x])).flatten = l.map g := by
  induction l with
  | nil => rfl
  | cons x xs ih => simp [ih]

theorem rampNode_filter (P : Params) (env : Env) (st : SSt) (k0 : Int) :
    ((rampNode P env st k0).2.filter isDiagCall) = [Ev.diagCall (P.perm k0) 0] := by
  have htail :
      ((dDiagFactorPanelSolveGPU P env st.mem (P.perm k0) 0).2.1.filter isDiagCall) = [] := by
    rw [List.filter_eq_nil_iff]
    intro e he
    simp [(dDiagFactorPanelSolveGPU_events P env st.mem (P.perm k0) 0 e he).2.1]
  simp [rampNode, List.filter_cons, isDiagCall, htail]

theorem processNode_diagCall_iff (P : Params) (env : Env)
    (topoLvl k1 winSize parity : Int) (st : SSt) (k0 k off : Int) :
    Ev.diagCall k off ∈ (processNode P env topoLvl k1 winSize parity st k0).2 ↔
      (k = P.setree (P.perm k0) ∧ off = 0 ∧
       P.setree (P.perm k0) < P.nsupers ∧
       0 < P.myIperm (P.setree (P.perm k0)) ∧
       P.myIperm (P.setree (P.perm k0)) < P.nNodes ∧
       topoLvl < P.maxTopoLevel - 1 ∧
       st.cnt (P.myIperm (P.setree (P.perm k0))) = 1) := by
  simp only [processNode, List.cons_append, List.nil_append, List.append_assoc]
  split_ifs <;>
    simp only [List.mem_cons, List.mem_append, List.mem_singleton,
      List.not_mem_nil, or_false, false_or] <;>
    rw [parentGate_diagCall_iff] <;>
    simp

theorem processNode_diagCall_post (P : Params) (env : Env)
    (topoLvl k1 winSize parity : Int) (st : SSt) (k0 k off : Int)
    (h : Ev.diagCall k off ∈ (processNode P env topoLvl k1 winSize parity st k0).2) :
    (processNode P env topoLvl k1 winSize parity st k0).1.cnt
      (P.myIperm (P.setree (P.perm k0))) = 0 := by
  simp only [processNode, List.cons_append, List.nil_append, List.append_assoc] at h ⊢
  split_ifs at h ⊢ with h1 h2
  all_goals
    simp only [List.mem_cons, List.mem_append, List.mem_singleton,
      List.not_mem_nil, or_false, false_or] at h
  all_goals
    exact parentGate_diagCall_post P env _ _ _ _ _ (by simpa using h)

theorem mem_countP_one {α : Type} (l : List α) (p : α → Bool) (x y : α)
    (h1 : l.countP p = 1) (hx : x ∈ l) (hpx : p x = true)
    (hy : y ∈ l) (hpy : p y = true) : y = x := by
  rw [List.countP_eq_length_filter] at h1
  rcases List.length_eq_one.mp h1 with ⟨a, ha⟩
  have hxa : x = a := by
    have hm := List.mem_filter.mpr ⟨hx, hpx⟩
    rw [ha] at hm
    simpa using hm
  have hya : y = a := by
    have hm := List.mem_filter.mpr ⟨hy, hpy⟩
    rw [ha] at hm
    simpa using hm
  rw [hxa, hya]

/-- C1: nodes of the first topological level are diagonal-factored in the
initial ramp, exactly one dDiagFactorPanelSolveGPU invocation per
first-level position in order; and in the pipelined window body (the only
other site that issues diagonal factorizations) a dDiagFactorPanelSolveGPU
invocation occurs only for the parent of the processed node, only at the point
where the localNumChildrenLeft counter of the parent is 1 before the decrement
and 0 after it — and when the counter agrees with the number of children
at positions not yet processed, this means every child of the parent lies
at a position <= k0, i.e. all child Schur-update contributions have
already been issued. -/
theorem diag_factor_child_gate (P : Params) (env : Env) :
    (∀ st, ((runSeq (rampNode P env) st
        (intRange (P.eTreeTopLims 0) (P.eTreeTopLims 1))).2.filter isDiagCall) =
      (intRange (P.eTreeTopLims 0) (P.eTreeTopLims 1)).map
        (fun k0 => Ev.diagCall (P.perm k0) 0)) ∧
    (∀ topoLvl k1 winSize parity st k0 k off,
      Ev.diagCall k off ∈ (processNode P env topoLvl k1 winSize parity st k0).2 →
        k = P.setree (P.perm k0) ∧
        st.cnt (P.myIperm k) = 1 ∧
        (processNode P env topoLvl k1 winSize parity st k0).1.cnt (P.myIperm k) = 0 ∧
        (st.cnt (P.myIperm k) = (childrenFrom P k0 (P.myIperm k) : Int) →
          ∀ j, k0 < j → j < P.nNodes →
            P.myIperm (P.setree (P.perm j)) ≠ P.myIperm k)) := by
  constructor
  · intro st
    rw [runSeq_trace_filter (rampNode P env) isDiagCall
        (fun k0 => [Ev.diagCall (P.perm k0) 0]) _
        (fun st x _ => rampNode_filter P env st x) st]
    exact flatten_map_singleton _ _
  · intro topoLvl k1 winSize parity st k0 k off h
    obtain ⟨rfl, rfl, hsup, hp1, hp2, hlvl, hcnt⟩ :=
      (processNode_diagCall_iff P env topoLvl k1 winSize parity st k0 k off).mp h
    refine ⟨rfl, hcnt, processNode_diagCall_post P env topoLvl k1 winSize parity st k0 _ 0 h, ?_⟩
    intro hinv j hj1 hj2 hpred
    have hcount : (intRange k0 P.nNodes).countP
        (fun j => P.myIperm (P.setree (P.perm j)) =
          P.myIperm (P.setree (P.perm k0))) = 1 := by
      unfold childrenFrom at hinv
      omega
    have hk0lt : k0 < P.nNodes := by
      by_contra hge
      rw [intRange_eq_nil (by omega)] at hcount
      simp at hcount
    have := mem_countP_one (intRange k0 P.nNodes)
      (fun j => P.myIperm (P.setree (P.perm j)) = P.myIperm (P.setree (P.perm k0)))
      k0 j hcount
      (mem_intRange.mpr ⟨le_refl k0, hk0lt⟩) (by simp)
      (mem_intRange.mpr ⟨by omega, hj2⟩) (by simp [hpred])
    omega

/-- Witness for C1 on the concrete chain: processing node 0 issues the
diagonal factorization of its parent (node 1) with the counter at 1. -/
theorem diag_factor_child_gate_witness :
    Ev.diagCall 1 0 ∈ (processNode P0 env0 0 0 1 0 (st0 P0) 0).2 ∧
    (st0 P0).cnt (P0.myIperm 1) = 1 ∧
    (st0 P0).cnt (P0.myIperm 1) = (childrenFrom P0 0 (P0.myIperm 1) : Int) :=
  ⟨by decide,
   ((diag_factor_child_gate P0 env0).2 0 0 1 0 (st0 P0) 0 1 0 (by decide)).2.1,
   by decide⟩

theorem processNode_schur_guard (P : Params) (env : Env)
    (topoLvl k1 winSize parity : Int) (st : SSt) (k0 : Int) :
    ∀ e ∈ (processNode P env topoLvl k1 winSize parity st k0).2, countsPos P e := by
  simp only [processNode, List.cons_append, List.nil_append, List.append_assoc]
  split_ifs with hpar hcnt <;> intro e he <;>
    simp only [List.mem_cons, List.mem_append, List.mem_singleton,
      List.not_mem_nil, or_false, false_or] at he <;>
    intro kk hkk
  all_goals
    first
      | (rcases he with rfl | rfl | he | rfl
         · simp [schurNode] at hkk
         · simp only [schurNode, Option.some.injEq] at hkk
           subst hkk
           assumption
         · rw [(parentGate_events P env _ _ _ e he).1] at hkk
           simp at hkk
         · simp only [schurNode, Option.some.injEq] at hkk
           subst hkk
           assumption)
      | (rcases he with rfl | he
         · simp [schurNode] at hkk
         · rw [(parentGate_events P env _ _ _ e he).1] at hkk
           simp at hkk)

theorem scanLoop_schur_none (P : Params) (env : Env) (k1n winSize parity : Int) :
    ∀ (l : List Int) (st : SSt),
      ∀ e ∈ (scanLoop P env k1n winSize parity st l).2.1, schurNode e = none := by
  intro l
  induction l with
  | nil => intro st e he; simp [scanLoop] at he
  | cons x xs ih =>
      intro st e he
      simp only [scanLoop] at he
      by_cases hc : st.cnt x = 0
      · rw [if_pos hc] at he
        simp only [List.cons_append, List.mem_cons, List.mem_append] at he
        rcases he with rfl | he | he
        · rfl
        · exact ((dPanelBcastGPU_events P env st.mem (P.perm x) _ e he).1)
        · exact ih _ e he
      · rw [if_neg hc] at he
        simp at he

theorem syncNode_schur_none (P : Params) (k1 winSize parity : Int) (st : SSt) (k0 : Int) :
    ∀ e ∈ (syncNode P k1 winSize parity st k0).2, schurNode e = none := by
  simp only [syncNode]
  split_ifs <;> intro e he <;> simp at he <;> subst he <;> rfl

theorem windowIter_schur_guard (P : Params) (env : Env)
    (topoLvl k1 winSize parity : Int) (st : SSt) :
    ∀ e ∈ (windowIter P env topoLvl k1 winSize parity st).2.1, countsPos P e := by
  unfold windowIter
  intro e he
  simp only [List.mem_append] at he
  rcases he with (he | he) | he
  · exact runSeq_events_good _ (countsPos P) _
      (fun st x _ => processNode_schur_guard P env topoLvl k1 winSize parity st x) st e he
  · intro kk hkk
    rw [scanLoop_schur_none P env _ _ _ _ _ e he] at hkk
    simp at hkk
  · intro kk hkk
    rw [runSeq_events_good _ (fun e => schurNode e = none) _
      (fun st x _ => syncNode_schur_none P k1 winSize parity st x) _ e he] at hkk
    simp at hkk

theorem pipeLoop_schur_guard (P : Params) (env : Env) (topoLvl : Int) (fuel : Nat) :
    ∀ (k1 winSize parity : Int) (st : SSt),
      ∀ e ∈ (pipeLoop P env topoLvl fuel k1 winSize parity st).2.1, countsPos P e := by
  induction fuel with
  | zero =>
      intro k1 winSize parity st e he
      unfold pipeLoop at he
      split_ifs at he <;> simp at he
  | succ n ih =>
      intro k1 winSize parity st e he
      unfold pipeLoop at he
      split_ifs at he
      · simp only [List.mem_append] at he
        rcases he with he | he
        · exact windowIter_schur_guard P env topoLvl k1 winSize parity st e he
        · exact ih _ _ _ _ e he
      · simp at he

theorem rampNode_schur_none (P : Params) (env : Env) (st : SSt) (k0 : Int) :
    ∀ e ∈ (rampNode P env st k0).2, schurNode e = none := by
  simp only [rampNode]
  intro e he
  rcases List.mem_cons.mp he with rfl | he
  · rfl
  · exact (dDiagFactorPanelSolveGPU_events P env st.mem (P.perm k0) 0 e he).1

theorem rampBcastNode_schur_none (P : Params) (env : Env) (st : SSt) (k0 : Int) :
    ∀ e ∈ (rampBcastNode P env st k0).2, schurNode e = none := by
  simp only [rampBcastNode]
  split_ifs with h
  · intro e he
    rcases List.mem_cons.mp he with rfl | he
    · rfl
    · exact (dPanelBcastGPU_events P env st.mem (P.perm k0) _ e he).1
  · intro e he
    simp at he

theorem pipeTrace_schur_guard (P : Params) (env : Env) (m : Mem) (fuel : Nat) :
    ∀ e ∈ (dsparseTreeFactorGPU P env m fuel).trace, countsPos P e := by
  unfold dsparseTreeFactorGPU
  split_ifs with h
  · intro e he
    simp at he
  · intro e he
    simp only [List.mem_append] at he
    rcases he with (he | he) | he
    · intro kk hkk
      rw [runSeq_events_good _ (fun e => schurNode e = none) _
        (fun st x _ => rampNode_schur_none P env st x) _ e he] at hkk
      simp at hkk
    · intro kk hkk
      rw [runSeq_events_good _ (fun e => schurNode e = none) _
        (fun st x _ => rampBcastNode_schur_none P env st x) _ e he] at hkk
      simp at hkk
    · exact pipeLoop_schur_guard P env 0 fuel 0 _ 0 _ e he

theorem baselineDiagPart_events (P : Params) (env : Env) (m : Mem) (k offset : Int) :
    ∀ e ∈ (baselineDiagPart P env m k offset).2,
      schurNode e = none ∧ isDiagCall e = false := by
  unfold baselineDiagPart
  split_ifs <;> intro e he <;>
    simp only [List.append_assoc, List.cons_append, List.nil_append,
      List.append_nil] at he <;>
    fin_cases he <;> exact ⟨rfl, rfl⟩

theorem baselineNode_schur_guard (P : Params) (env : Env) (kSt : Int)
    (m : Mem) (k0 : Int) :
    ∀ e ∈ (baselineNode P env kSt m k0).2, countsPos P e := by
  unfold baselineNode baselineSchurPart
  intro e he
  simp only [List.mem_append] at he
  rcases he with (he | he) | he
  · intro kk hkk
    rw [(baselineDiagPart_events P env m (P.perm k0) (k0 - kSt) e he).1] at hkk
    simp at hkk
  · intro kk hkk
    rw [(dPanelBcastGPU_events P env _ (P.perm k0) 0 e he).1] at hkk
    simp at hkk
  · split_ifs at he with hc
    · rcases List.mem_singleton.mp he with rfl
      intro kk hkk
      simp only [schurNode, Option.some.injEq] at hkk
      subst hkk
      exact hc
    · simp at he

theorem baselineTrace_schur_guard (P : Params) (env : Env) (m : Mem) :
    ∀ e ∈ (dsparseTreeFactorGPUBaseline P env m).trace, countsPos P e := by
  unfold dsparseTreeFactorGPUBaseline
  split_ifs with h
  · intro e he
    simp at he
  · intro e he
    refine runSeq_events_good _ (countsPos P) _ (fun mm lvl _ => ?_) m e he
    intro e2 he2
    exact runSeq_events_good _ (countsPos P) _
      (fun mmm x _ => baselineNode_schur_guard P env _ mmm x) mm e2 he2

theorem dPanelBcastGPU_zero (P : Params) (env : Env) (m : Mem) (k offset : Int)
    (hU : P.UidxSendCounts k = 0) (hL : P.LidxSendCounts k = 0) :
    dPanelBcastGPU P env m k offset = (m, ([], 0)) := by
  unfold dPanelBcastGPU
  simp [show ¬P.UidxSendCounts k > 0 by omega, show ¬P.LidxSendCounts k > 0 by omega]

/-- C7: a node k whose L and U send counts are both zero never receives a
Schur-update call in either scheduler (neither lookAheadUpdateGPU nor
dSchurCompUpdateExcludeOneGPU nor dSchurComplementUpdateGPU), while the
bookkeeping still runs: the baseline node step degenerates to exactly its
diagonal-factorization section (the inline panel broadcast being a
no-op); the pipelined window body still emits the progress step of the node
followed only by parent-gate events; the ramp still invokes the diagonal
factorization of every first-level node; and the scan still invokes the
panel broadcast of every gate-satisfied node - all independently of the
counts. -/
theorem zero_count_node_skips_schur (P : Params) (env : Env) (m : Mem)
    (fuel : Nat) (k : Int)
    (hU : P.UidxSendCounts k = 0) (hL : P.LidxSendCounts k = 0) :
    (∀ e ∈ (dsparseTreeFactorGPU P env m fuel).trace, schurNode e ≠ some k) ∧
    (∀ e ∈ (dsparseTreeFactorGPUBaseline P env m).trace, schurNode e ≠ some k) ∧
    (∀ kSt mm k0, P.perm k0 = k →
      baselineNode P env kSt mm k0 =
        ((baselineDiagPart P env mm k (k0 - kSt)).1,
         (baselineDiagPart P env mm k (k0 - kSt)).2)) ∧
    (∀ topoLvl k1 winSize parity st k0, P.perm k0 = k →
      ∃ off l, (processNode P env topoLvl k1 winSize parity st k0).2 =
        Ev.doing k0 off :: l ∧ ∀ e ∈ l, schurNode e = none) ∧
    (∀ st k0, ∃ tl, (rampNode P env st k0).2 = Ev.diagCall (P.perm k0) 0 :: tl) ∧
    (∀ k1n winSize parity st k0n rest, st.cnt k0n = 0 →
      ∃ off tl, (scanLoop P env k1n winSize parity st (k0n :: rest)).2.1 =
        Ev.bcastCall (P.perm k0n) off :: tl) := by
  refine ⟨?_, ?_, ?_, ?_, ?_, ?_⟩
  · intro e he hk
    have := pipeTrace_schur_guard P env m fuel e he k hk
    omega
  · intro e he hk
    have := baselineTrace_schur_guard P env m e he k hk
    omega
  · intro kSt mm k0 hk
    subst hk
    simp only [baselineNode, baselineSchurPart]
    rw [dPanelBcastGPU_zero P env _ (P.perm k0) 0 hU hL]
    simp [show ¬(P.UidxSendCounts (P.perm k0) > 0 ∧ P.LidxSendCounts (P.perm k0) > 0) by omega]
  · intro topoLvl k1 winSize parity st k0 hk
    have hg : ¬(P.UidxSendCounts (P.perm k0) > 0 ∧ P.LidxSendCounts (P.perm k0) > 0) := by
      rw [hk]; omega
    simp only [processNode, if_neg hg, List.cons_append, List.nil_append,
      List.append_nil]
    exact ⟨_, _, rfl, fun e he => (parentGate_events P env _ _ _ e he).1⟩
  · intro st k0
    exact ⟨_, rfl⟩
  · intro k1n winSize parity st k0n rest hc
    simp only [scanLoop]
    rw [if_pos hc]
    exact ⟨_, _, rfl⟩

/-- Witness for C7 on the concrete chain with zeroed send counts. -/
theorem zero_count_node_skips_schur_witness :
    P0Z.UidxSendCounts 0 = 0 ∧ P0Z.LidxSendCounts 0 = 0 ∧
    (∀ e ∈ (dsparseTreeFactorGPU P0Z env0 mem0 4).trace, schurNode e ≠ some 0) ∧
    (∀ e ∈ (dsparseTreeFactorGPUBaseline P0Z env0 mem0).trace, schurNode e ≠ some 0) :=
  ⟨rfl, rfl,
   (zero_count_node_skips_schur P0Z env0 mem0 4 0 rfl rfl).1,
   (zero_count_node_skips_schur P0Z env0 mem0 4 0 rfl rfl).2.1⟩

theorem offOk_single (P : Params) {e : Ev} {o0 : Int} (h : evOffsets e = [o0])
    (h1 : 0 ≤ o0) (h2 : o0 < P.numLA) : offOk P e := by
  intro o ho
  rw [h] at ho
  simp at ho
  subst ho
  exact ⟨h1, h2⟩

theorem offOk_nil (P : Params) {e : Ev} (h : evOffsets e = []) : offOk P e := by
  intro o ho
  rw [h] at ho
  simp at ho

theorem tdiv_two_bounds {n : Int} (h : 0 ≤ n) :
    0 ≤ Int.tdiv n 2 ∧ 2 * Int.tdiv n 2 ≤ n := by
  rw [Int.tdiv_eq_ediv h (by norm_num)]
  have h1 := Int.ediv_add_emod n 2
  have h2 := Int.emod_nonneg n (by norm_num : (2:Int) ≠ 0)
  omega

theorem slot_offset_ok (P : Params) {winSize d : Int} (sh : Int)
    (hd : 0 ≤ d) (hdw : d < winSize) (hw : winSize ≤ Int.tdiv P.numLA 2)
    (hLA : 2 ≤ P.numLA) (hsh : sh = 0 ∨ sh = Int.tdiv P.numLA 2) :
    0 ≤ Int.tmod d winSize + sh ∧ Int.tmod d winSize + sh < P.numLA := by
  rw [Int.tmod_eq_of_lt hd hdw]
  have hb := tdiv_two_bounds (show (0:Int) ≤ P.numLA by omega)
  rcases hsh with rfl | rfl <;> omega

theorem processNode_offOk (P : Params) (env : Env)
    (topoLvl k1 winSize parity : Int) (st : SSt) (k0 : Int)
    (hLA : 2 ≤ P.numLA) (hw : winSize ≤ Int.tdiv P.numLA 2)
    (hlo : k1 ≤ k0) (hhi : k0 < k1 + winSize) :
    ∀ e ∈ (processNode P env topoLvl k1 winSize parity st k0).2, offOk P e := by
  simp only [processNode, List.cons_append, List.nil_append, List.append_assoc]
  split_ifs <;> intro e he <;>
    simp only [List.mem_cons, List.mem_append, List.mem_singleton,
      List.not_mem_nil, or_false, false_or] at he
  all_goals
    have hOFF1 := slot_offset_ok P (Int.tdiv P.numLA 2)
      (show (0:Int) ≤ k0 - k1 by omega) (show k0 - k1 < winSize by omega) hw hLA (Or.inr rfl)
  all_goals
    have hOFF0 := slot_offset_ok P 0
      (show (0:Int) ≤ k0 - k1 by omega) (show k0 - k1 < winSize by omega) hw hLA (Or.inl rfl)
  all_goals
    first
      | (rcases he with rfl | rfl | he | rfl
         · exact offOk_single P rfl (by omega) (by omega)
         · exact offOk_single P rfl (by omega) (by omega)
         · rcases (parentGate_events P env _ _ _ e he).2 with h | h
           · exact offOk_single P h le_rfl (by omega)
           · exact offOk_nil P h
         · exact offOk_single P rfl (by omega) (by omega))
      | (rcases he with rfl | he
         · exact offOk_single P rfl (by omega) (by omega)
         · rcases (parentGate_events P env _ _ _ e he).2 with h | h
           · exact offOk_single P h le_rfl (by omega)
           · exact offOk_nil P h)

theorem syncNode_offOk (P : Params) (k1 winSize parity : Int) (st : SSt) (k0 : Int)
    (hLA : 2 ≤ P.numLA) (hw : winSize ≤ Int.tdiv P.numLA 2)
    (hlo : k1 ≤ k0) (hhi : k0 < k1 + winSize) :
    ∀ e ∈ (syncNode P k1 winSize parity st k0).2, offOk P e := by
  simp only [syncNode]
  split_ifs <;> intro e he <;> simp at he <;> subst he
  all_goals
    have hOFF1 := slot_offset_ok P (Int.tdiv P.numLA 2)
      (show (0:Int) ≤ k0 - k1 by omega) (show k0 - k1 < winSize by omega) hw hLA (Or.inr rfl)
  all_goals
    have hOFF0 := slot_offset_ok P 0
      (show (0:Int) ≤ k0 - k1 by omega) (show k0 - k1 < winSize by omega) hw hLA (Or.inl rfl)
  all_goals exact offOk_single P rfl (by omega) (by omega)

theorem scanLoop_offOk (P : Params) (env : Env) (k1n winSize parity : Int)
    (hLA : 2 ≤ P.numLA) (hw : winSize ≤ Int.tdiv P.numLA 2) :
    ∀ (l : List Int) (st : SSt), (∀ x ∈ l, k1n ≤ x ∧ x < k1n + winSize) →
      ∀ e ∈ (scanLoop P env k1n winSize parity st l).2.1, offOk P e := by
  intro l
  induction l with
  | nil => intro st hb e he; simp [scanLoop] at he
  | cons x xs ih =>
      intro st hb e he
      simp only [scanLoop] at he
      by_cases hc : st.cnt x = 0
      · rw [if_pos hc] at he
        simp only [List.cons_append, List.mem_cons, List.mem_append] at he
        have hx := hb x (by simp)
        have hOFF1 := slot_offset_ok P (Int.tdiv P.numLA 2)
          (show (0:Int) ≤ x - k1n by omega) (show x - k1n < winSize by omega) hw hLA (Or.inr rfl)
        have hOFF0 := slot_offset_ok P 0
          (show (0:Int) ≤ x - k1n by omega) (show x - k1n < winSize by omega) hw hLA (Or.inl rfl)
        rcases he with rfl | he | he
        · split_ifs <;> exact offOk_single P rfl (by omega) (by omega)
        · rcases (dPanelBcastGPU_events P env st.mem (P.perm x) _ e he) with ⟨_, _, hoff⟩
          split_ifs at hoff <;> exact offOk_single P hoff (by omega) (by omega)
        · exact ih _ (fun y hy => hb y (by simp [hy])) e he
      · rw [if_neg hc] at he
        simp at he

theorem rampNode_offOk (P : Params) (env : Env) (st : SSt) (k0 : Int)
    (hLA : 2 ≤ P.numLA) :
    ∀ e ∈ (rampNode P env st k0).2, offOk P e := by
  simp only [rampNode]
  intro e he
  rcases List.mem_cons.mp he with rfl | he
  · exact offOk_single P rfl le_rfl (by omega)
  · rcases (dDiagFactorPanelSolveGPU_events P env st.mem (P.perm k0) 0 e he).2.2 with h | h
    · exact offOk_single P h le_rfl (by omega)
    · exact offOk_nil P h

theorem rampBcastNode_offOk (P : Params) (env : Env) (st : SSt) (k0 : Int)
    (hLA : 2 ≤ P.numLA) (hk0 : 0 ≤ k0) :
    ∀ e ∈ (rampBcastNode P env st k0).2, offOk P e := by
  simp only [rampBcastNode]
  split_ifs with h
  · intro e he
    have hb1 : 0 ≤ Int.tmod k0 P.numLA := Int.tmod_nonneg P.numLA hk0
    have hb2 : Int.tmod k0 P.numLA < P.numLA := Int.tmod_lt_of_pos k0 (by omega)
    rcases List.mem_cons.mp he with rfl | he
    · exact offOk_single P rfl hb1 hb2
    · exact offOk_single P (dPanelBcastGPU_events P env st.mem (P.perm k0) _ e he).2.2 hb1 hb2
  · intro e he
    simp at he

theorem scanLoop_winSize_le (P : Params) (env : Env) (k1n winSize parity : Int) :
    ∀ (l : List Int) (st : SSt), (∀ x ∈ l, x < k1n + winSize) →
      ((scanLoop P env k1n winSize parity st l).2.2 ≤ winSize ∧
       ((∀ x ∈ l, k1n ≤ x) → 0 ≤ winSize → 0 ≤ (scanLoop P env k1n winSize parity st l).2.2)) := by
  intro l
  induction l with
  | nil =>
      intro st hb
      exact ⟨le_refl _, fun _ h => h⟩
  | cons x xs ih =>
      intro st hb
      simp only [scanLoop]
      by_cases hc : st.cnt x = 0
      · rw [if_pos hc]
        exact ⟨(ih _ (fun y hy => hb y (by simp [hy]))).1,
               fun hlo h0 => (ih _ (fun y hy => hb y (by simp [hy]))).2
                 (fun y hy => hlo y (by simp [hy])) h0⟩
      · rw [if_neg hc]
        dsimp only
        refine ⟨by have := hb x (by simp); omega, fun hlo _ => ?_⟩
        have := hlo x (by simp)
        omega

theorem windowIter_offOk (P : Params) (env : Env)
    (topoLvl k1 winSize parity : Int) (st : SSt)
    (hLA : 2 ≤ P.numLA) (h0 : 0 ≤ winSize) (hw : winSize ≤ Int.tdiv P.numLA 2) :
    (∀ e ∈ (windowIter P env topoLvl k1 winSize parity st).2.1, offOk P e) ∧
    0 ≤ (windowIter P env topoLvl k1 winSize parity st).2.2 ∧
    (windowIter P env topoLvl k1 winSize parity st).2.2 ≤ winSize := by
  unfold windowIter
  refine ⟨?_, ?_, ?_⟩
  · intro e he
    simp only [List.mem_append] at he
    rcases he with (he | he) | he
    · refine runSeq_events_good _ (offOk P) _ (fun st2 x hx => ?_) st e he
      have hx2 := mem_intRange.mp hx
      exact processNode_offOk P env topoLvl k1 winSize parity st2 x hLA hw
        hx2.1 (by have := hx2.2; omega)
    · refine scanLoop_offOk P env (k1 + winSize) winSize parity hLA hw _ _
        (fun x hx => ?_) e he
      have hx2 := mem_intRange.mp hx
      exact ⟨hx2.1, by have := hx2.2; omega⟩
    · refine runSeq_events_good _ (offOk P) _ (fun st2 x hx => ?_) _ e he
      have hx2 := mem_intRange.mp hx
      exact syncNode_offOk P k1 winSize parity st2 x hLA hw hx2.1 (by have := hx2.2; omega)
  · exact (scanLoop_winSize_le P env (k1 + winSize) winSize parity _ _
      (fun x hx => by have := (mem_intRange.mp hx).2; omega)).2
      (fun x hx => (mem_intRange.mp hx).1) h0
  · exact (scanLoop_winSize_le P env (k1 + winSize) winSize parity _ _
      (fun x hx => by have := (mem_intRange.mp hx).2; omega)).1

theorem pipeLoop_offOk (P : Params) (env : Env) (topoLvl : Int) (fuel : Nat)
    (hLA : 2 ≤ P.numLA) :
    ∀ (k1 winSize parity : Int) (st : SSt),
      0 ≤ winSize → winSize ≤ Int.tdiv P.numLA 2 →
      ∀ e ∈ (pipeLoop P env topoLvl fuel k1 winSize parity st).2.1, offOk P e := by
  induction fuel with
  | zero =>
      intro k1 winSize parity st h0 hw e he
      unfold pipeLoop at he
      split_ifs at he <;> simp at he
  | succ n ih =>
      intro k1 winSize parity st h0 hw e he
      unfold pipeLoop at he
      split_ifs at he
      · simp only [List.mem_append] at he
        have hWI := windowIter_offOk P env topoLvl k1 winSize parity st hLA h0 hw
        rcases he with he | he
        · exact hWI.1 e he
        · exact ih _ _ _ _ hWI.2.1 (le_trans hWI.2.2 hw) e he
      · simp at he

/-- C10: with look-ahead depth numLA >= 2 and a nonempty first topological
level, every buffer-slot offset appearing in any operation of the
trace of the pipelined scheduler (stream/handle indices, scratch and
Uidx/Uval/Lidx/Lval receive-buffer indices, the printed slot) lies in
[0, numLA); moreover every window iteration returns a window size no
larger than the one it was given (winSize only ever shrinks) and the
initial window size min(numLA/2, eTreeTopLims[1]) is at most numLA/2. -/
theorem slot_offsets_in_range (P : Params) (env : Env) (m : Mem) (fuel : Nat)
    (hLA : 2 ≤ P.numLA) (h0 : P.eTreeTopLims 0 = 0) (h1 : 1 ≤ P.eTreeTopLims 1) :
    (∀ e ∈ (dsparseTreeFactorGPU P env m fuel).trace, offOk P e) ∧
    (∀ topoLvl k1 winSize parity st,
      (windowIter P env topoLvl k1 winSize parity st).2.2 ≤ winSize) ∧
    min (Int.tdiv P.numLA 2) (P.eTreeTopLims 1) ≤ Int.tdiv P.numLA 2 := by
  refine ⟨?_, ?_, min_le_left _ _⟩
  · unfold dsparseTreeFactorGPU
    split_ifs with hn
    · intro e he
      simp at he
    · intro e he
      simp only [List.mem_append] at he
      have htd := tdiv_two_bounds (show (0:Int) ≤ P.numLA by omega)
      rcases he with (he | he) | he
      · exact runSeq_events_good _ (offOk P) _
          (fun st2 x _ => rampNode_offOk P env st2 x hLA) _ e he
      · refine runSeq_events_good _ (offOk P) _ (fun st2 x hx => ?_) _ e he
        have hx2 := mem_intRange.mp hx
        exact rampBcastNode_offOk P env st2 x hLA (by omega)
      · exact pipeLoop_offOk P env 0 fuel hLA 0 _ 0 _
          (le_min htd.1 (by omega)) (min_le_left _ _) e he
  · intro topoLvl k1 winSize parity st
    unfold windowIter
    exact (scanLoop_winSize_le P env (k1 + winSize) winSize parity _ _
      (fun x hx => by have := (mem_intRange.mp hx).2; omega)).1

/-- Witness for C10 on the concrete chain (numLA = 4, first level size 1). -/
theorem slot_offsets_in_range_witness :
    (2 : Int) ≤ P0.numLA ∧
    (∀ e ∈ (dsparseTreeFactorGPU P0 env0 mem0 4).trace, offOk P0 e) :=
  ⟨by decide,
   (slot_offsets_in_range P0 env0 mem0 4 (by decide) (by decide) (by decide)).1⟩

theorem getD_map_range {f : Nat → Int} {n i : Nat} (h : i < n) :
    (((List.range n).map f).getD i 0) = f i := by
  rw [List.getD_eq_getElem?_getD]
  simp [List.getElem?_map, List.getElem?_range, h]

theorem getD_append_lt (l1 l2 : List Int) (i : Nat) (h : i < l1.length) :
    (l1 ++ l2).getD i 0 = l1.getD i 0 := by
  rw [List.getD_eq_getElem?_getD, List.getD_eq_getElem?_getD, List.getElem?_append,
    if_pos h]

theorem getD_append_ge (l1 l2 : List Int) (i : Nat) (h : l1.length ≤ i) :
    (l1 ++ l2).getD i 0 = l2.getD (i - l1.length) 0 := by
  rw [List.getD_eq_getElem?_getD, List.getD_eq_getElem?_getD, List.getElem?_append,
    if_neg (by omega)]

theorem lpanelIndex_gid (k : Int) (lsub : Nat → Int) (xsup : Int → Int)
    (isDiag : Int) {i : Nat} (h : i < (lsub 0).toNat) :
    (lpanelIndex k lsub xsup isDiag).getD (LPANEL_HEADER_SIZE + i) 0 =
      blkGid lsub i := by
  unfold lpanelIndex LPANEL_HEADER_SIZE
  rw [List.append_assoc, List.append_assoc,
    getD_append_ge _ _ _ (by simp),
    getD_append_lt _ _ _ (by simp; omega)]
  simp only [List.length_cons, List.length_nil]
  rw [show 4 + i - 4 = i by omega]
  exact getD_map_range h

theorem lpanelIndex_pxs (k : Int) (lsub : Nat → Int) (xsup : Int → Int)
    (isDiag : Int) {i : Nat} (h : i ≤ (lsub 0).toNat) :
    (lpanelIndex k lsub xsup isDiag).getD
      (LPANEL_HEADER_SIZE + (lsub 0).toNat + i) 0 = pxSum lsub i := by
  unfold lpanelIndex LPANEL_HEADER_SIZE
  rw [List.append_assoc, List.append_assoc,
    getD_append_ge _ _ _ (by simp only [List.length_cons, List.length_nil]; omega),
    getD_append_ge _ _ _ (by simp; omega)]
  simp only [List.length_cons, List.length_nil, List.length_map, List.length_range]
  rw [show 4 + (lsub 0).toNat + i - 4 - (lsub 0).toNat = i by omega]
  rw [getD_append_lt _ _ _ (by simp; omega)]
  exact getD_map_range (by omega)

theorem lpanelIndex_nzrow (k : Int) (lsub : Nat → Int) (xsup : Int → Int)
    (isDiag : Int) :
    (lpanelIndex k lsub xsup isDiag).getD 1 0 = lsub 1 := by
  unfold lpanelIndex
  rfl

theorem pxSum_mono (lsub : Nat → Int) (n : Nat)
    (hrows : ∀ t < n, 0 ≤ blkNrows lsub t) :
    ∀ j, j ≤ n → ∀ i, i ≤ j → pxSum lsub i ≤ pxSum lsub j := by
  intro j
  induction j with
  | zero =>
      intro _ i hi
      rw [Nat.le_zero.mp hi]
  | succ jj ih =>
      intro hj i hi
      rcases Nat.lt_or_ge i (jj + 1) with hlt | hge
      · have h2 : pxSum lsub i ≤ pxSum lsub jj := ih (by omega) i (by omega)
        have h3 : 0 ≤ blkNrows lsub jj := hrows jj (by omega)
        calc pxSum lsub i ≤ pxSum lsub jj := h2
          _ ≤ blkNrows lsub jj + pxSum lsub jj := by omega
          _ = pxSum lsub (jj + 1) := rfl
      · rw [show i = jj + 1 by omega]

theorem pxSum_total (lsub : Nat → Int) :
    ∀ n, pxSum lsub n = ((List.range n).map (blkNrows lsub)).sum := by
  intro n
  induction n with
  | zero => rfl
  | succ m ih =>
      rw [List.sum_range_succ]
      show blkNrows lsub m + pxSum lsub m = _
      omega

/-- C8: for a well-formed lsub input (block row counts nonnegative and
summing to lsub[1], block ids strictly increasing), the index array built
by the xlpanel_t constructor has its row-block-id segment in strictly
increasing order, its prefix-sum segment starting at 0, monotonically
non-decreasing, and ending with the stored total nonzero row count
index[1]. -/
theorem lpanel_index_invariants (k : Int) (lsub : Nat → Int) (xsup : Int → Int)
    (isDiag : Int)
    (hrows : ∀ i < (lsub 0).toNat, 0 ≤ blkNrows lsub i)
    (hinc : ∀ j < (lsub 0).toNat, ∀ i < j, blkGid lsub i < blkGid lsub j)
    (hsum : ((List.range (lsub 0).toNat).map (blkNrows lsub)).sum = lsub 1) :
    (∀ j < (lsub 0).toNat, ∀ i < j,
      (lpanelIndex k lsub xsup isDiag).getD (LPANEL_HEADER_SIZE + i) 0 <
      (lpanelIndex k lsub xsup isDiag).getD (LPANEL_HEADER_SIZE + j) 0) ∧
    (lpanelIndex k lsub xsup isDiag).getD
      (LPANEL_HEADER_SIZE + (lsub 0).toNat) 0 = 0 ∧
    (∀ j, j ≤ (lsub 0).toNat → ∀ i, i ≤ j →
      (lpanelIndex k lsub xsup isDiag).getD
        (LPANEL_HEADER_SIZE + (lsub 0).toNat + i) 0 ≤
      (lpanelIndex k lsub xsup isDiag).getD
        (LPANEL_HEADER_SIZE + (lsub 0).toNat + j) 0) ∧
    (lpanelIndex k lsub xsup isDiag).getD
      (LPANEL_HEADER_SIZE + (lsub 0).toNat + (lsub 0).toNat) 0 =
      (lpanelIndex k lsub xsup isDiag).getD 1 0 := by
  refine ⟨?_, ?_, ?_, ?_⟩
  · intro j hj i hi
    rw [lpanelIndex_gid k lsub xsup isDiag (by omega),
        lpanelIndex_gid k lsub xsup isDiag hj]
    exact hinc j hj i hi
  · have h := lpanelIndex_pxs k lsub xsup isDiag (i := 0) (by omega)
    rw [show LPANEL_HEADER_SIZE + (lsub 0).toNat + 0 =
      LPANEL_HEADER_SIZE + (lsub 0).toNat by omega] at h
    rw [h]
    rfl
  · intro j hj i hi
    rw [lpanelIndex_pxs k lsub xsup isDiag (by omega),
        lpanelIndex_pxs k lsub xsup isDiag hj]
    exact pxSum_mono lsub (lsub 0).toNat hrows j hj i hi
  · rw [lpanelIndex_pxs k lsub xsup isDiag (le_refl _),
        lpanelIndex_nzrow k lsub xsup isDiag, pxSum_total]
    exact hsum

/-- Witness for C8 on the concrete two-block lsub. -/
theorem lpanel_index_invariants_witness :
    (∀ i < (lsubEx 0).toNat, 0 ≤ blkNrows lsubEx i) ∧
    (lpanelIndex 3 lsubEx xsupEx 0).getD
      (LPANEL_HEADER_SIZE + (lsubEx 0).toNat) 0 = 0 ∧
    (lpanelIndex 3 lsubEx xsupEx 0).getD
      (LPANEL_HEADER_SIZE + (lsubEx 0).toNat + (lsubEx 0).toNat) 0 =
      (lpanelIndex 3 lsubEx xsupEx 0).getD 1 0 :=
  ⟨by decide,
   (lpanel_index_invariants 3 lsubEx xsupEx 0 (by decide) (by decide) (by decide)).2.1,
   (lpanel_index_invariants 3 lsubEx xsupEx 0 (by decide) (by decide) (by decide)).2.2.2⟩
